import Mathlib

/-!
Verification of the probabilistic route scoring & ranking engine of the
tra-in backend (`modelapi/app`): `probability.py`, `ranker.py`,
`presenter.py`, `main.py` and the padding logic over
`buckets.fetch_lookback_bucket_delays`.

Modelling conventions:
* Python floats used in the probability pipeline are modelled as real
  numbers (`ℝ`); floats that only flow through comparisons, sums and
  products (route aggregation, ranking keys, transfer waits) are modelled
  as rationals (`ℚ`) so that everything there is executable.
* Timestamps (`pd.Timestamp`) are modelled as integer minutes (`ℤ`);
  `(b - a).total_seconds() / 60.0` becomes `b - a`.
* `math.erf` is modelled by the Gauss error function, defined as its
  integral representation.
* The LSTM forecaster (`store.model`) is an external black box; it is
  modelled as an oracle field of `Store` producing the mixture parameters
  for a segment id and a planned-arrival timestamp.
* Python's `list.sort` / pandas `sort_values` are stable sorts; they are
  modelled by `List.insertionSort`, which is stable and sorted for a total
  transitive relation, hence extensionally the same function.
-/

namespace TrainRec

/-! ### probability.py -/

/-- `math.erf`, the Gauss error function, modelled by its integral
representation `erf z = 2/√π · ∫ t in 0..z, exp (-t²)`. -/
noncomputable def erf (z : ℝ) : ℝ :=
  2 / Real.sqrt Real.pi * ∫ t in (0:ℝ)..z, Real.exp (-(t ^ 2))

/-- `probability.normal_cdf`: `0.5 * (1.0 + erf(z / sqrt(2.0)))`. -/
noncomputable def normal_cdf (z : ℝ) : ℝ :=
  0.5 * (1 + erf (z / Real.sqrt 2))

/-- `probability.mixture_cdf`: `np.sum(pi * normal_cdf((x_norm - mu) / np.clip(sigma, 1e-6, None)))`.
The numpy arrays `pi`, `mu`, `sigma` (always of one common length K, the
number of mixture components produced by the net) are modelled as lists
traversed in lockstep; `np.clip(sigma, 1e-6, None)` is `max sigma 1e-6`. -/
noncomputable def mixture_cdf : ℝ → List ℝ → List ℝ → List ℝ → ℝ
  | _, [], _, _ => 0
  | _, _ :: _, [], _ => 0
  | _, _ :: _, _ :: _, [] => 0
  | x, p :: ps, m :: ms, s :: ss =>
      p * normal_cdf ((x - m) / max s 1e-6) + mixture_cdf x ps ms ss

/-- `probability.clamp01`: `max(0.0, min(1.0, x))`. -/
noncomputable def clamp01 (x : ℝ) : ℝ := max 0 (min 1 x)

/-! ### ranker.py, known-segment branch (lines 69-71)

`slack_min = max(0.0, (deadline - planned_arrival).total_seconds() / 60.0)`
`x_norm = (slack_min - mean) / max(std, 1e-8)`
`p = clamp01(mixture_cdf(float(x_norm), pi, mu, sigma))` -/

/-- Lines 69-71 of `ranker.prob_leg_on_time` as a function of the raw slack
`deadline - planned_arrival` (in minutes) and the mixture produced by the
model for this leg. -/
noncomputable def prob_from_slack (mean std : ℝ) (pi mu sigma : List ℝ)
    (slackRaw : ℝ) : ℝ :=
  clamp01 (mixture_cdf ((max 0 slackRaw - mean) / max std 1e-8) pi mu sigma)

/-- The model store (`model_store.ModelStore`): the segment vocabulary
(`segment_id`, `none` for a segment unknown to the forecaster), the global
normalisation artifacts `mean`/`std`, and the LSTM net itself, abstracted
as an oracle from (segment id, planned arrival timestamp — which fixes the
history window fed to the net) to mixture parameters `(pi, mu, sigma)`. -/
structure Store where
  segId : String → Option ℕ
  mean : ℝ
  std : ℝ
  mixtureOf : ℕ → ℝ → List ℝ × List ℝ × List ℝ

/-- `ranker.prob_leg_on_time` (probability component): unknown segments
return the fixed fallback `0.50` before any slack computation; known
segments go through lines 69-71 (`prob_from_slack`) on the mixture the
model produces for them. -/
noncomputable def prob_leg_on_time (store : Store) (segment : String)
    (planned deadline : ℝ) : ℝ :=
  match store.segId segment with
  | none => 0.5
  | some sid =>
      let pms := store.mixtureOf sid planned
      prob_from_slack store.mean store.std pms.1 pms.2.1 pms.2.2
        (deadline - planned)

/-- A concrete store whose vocabulary is empty (every segment unknown),
used to instantiate theorems about the unknown-segment fallback. -/
noncomputable def storeUnknown : Store :=
  { segId := fun _ => none, mean := 0, std := 1,
    mixtureOf := fun _ _ => ([1], [0], [1]) }

/-! ### ranker.aggregate_route -/

/-- `ranker.aggregate_route`, with `settings.ROUTE_AGG` passed explicitly:
`"product"` multiplies starting from `1.0`; anything else takes
`min(probs)` when the list is non-empty and `0.0` otherwise. -/
def aggregate_route (agg : String) (probs : List ℚ) : ℚ :=
  if agg = "product" then probs.foldl (· * ·) 1
  else
    match probs with
    | [] => 0
    | p :: ps => ps.foldl min p

/-! ### buckets.py fetch result padding (ranker.py lines 35-48) -/

/-- One row of the `segment_delay_buckets` fetch result / of the padding
frame: columns `segment`, `ts` (minutes), `y` (mean delay, minutes). -/
structure BRow where
  seg : String
  ts : ℤ
  y : ℚ
deriving DecidableEq

/-- Ascending-timestamp order used by `sort_values("ts")`. -/
abbrev tsLe (a b : BRow) : Prop := a.ts ≤ b.ts

instance : DecidableRel tsLe := fun a b => inferInstanceAs (Decidable (a.ts ≤ b.ts))

instance : IsTotal BRow tsLe := ⟨fun a b => le_total a.ts b.ts⟩

instance : IsTrans BRow tsLe := ⟨fun _ _ _ => le_trans⟩

/-- The synthetic padding frame of `ranker.prob_leg_on_time` lines 38-43:
`pd.date_range(end = target - bucket_minutes, periods = missing,
freq = bucket_minutes)` with `y = 0.0`; row `i` (0-based, ascending) has
timestamp `target - (missing - i) * B`. -/
def padRows (target : ℤ) (B missing : ℕ) (seg : String) : List BRow :=
  (List.range missing).map fun (i : ℕ) =>
    ⟨seg, target - ((missing : ℤ) - (i : ℤ)) * (B : ℤ), 0⟩

/-- Lines 35-48 of `ranker.prob_leg_on_time`: if the fetched history has
fewer than `LOOKBACK_STEPS` rows, synthesize the missing rows, concatenate
them *before* the real rows and stable-sort ascending by `ts`
(`pd.concat([pad, hist]).sort_values("ts")`). -/
def padHistory (seg : String) (target : ℤ) (B L : ℕ) (hist : List BRow) :
    List BRow :=
  if hist.length < L then
    List.insertionSort tsLe (padRows target B (L - hist.length) seg ++ hist)
  else hist

/-! ### main.py `recommend` ranking + presenter.py rank assignment -/

/-- Descending order on the ranking key `p_on_time`
(`results.sort(key=lambda x: x["p_on_time"], reverse=True)`); routes are
tagged with their 0-based input (candidate-generator) position. -/
abbrev probGe (a b : ℕ × ℚ) : Prop := b.2 ≤ a.2

instance : DecidableRel probGe := fun a b => inferInstanceAs (Decidable (b.2 ≤ a.2))

instance : IsTotal (ℕ × ℚ) probGe := ⟨fun a b => le_total b.2 a.2⟩

instance : IsTrans (ℕ × ℚ) probGe := ⟨fun _ _ _ h1 h2 => le_trans h2 h1⟩

/-- The stable descending sort of `main.recommend`
(Python `list.sort` is stable; with `reverse=True` equal keys keep their
input order). -/
def sortScored (rows : List (ℕ × ℚ)) : List (ℕ × ℚ) :=
  List.insertionSort probGe rows

/-- The ranking pipeline on the probability keys: tag candidates with
their input order, stable-sort descending, truncate to `topk`
(`results[:req.topk]` / `routes[:topk]`), then assign 1-based ranks
(`"rank": i + 1` in `presenter.present_recommendation_v2`). Each output
entry is `(rank, input_position, p_on_time)`. -/
def rankTop (probs : List ℚ) (topk : ℕ) : List (ℕ × ℕ × ℚ) :=
  ((sortScored probs.enum).take topk).enum.map fun p => (p.1 + 1, p.2)

/-! ### presenter.py risk classification -/

/-- `presenter.risk_level`. -/
def risk_level (has_risky : Bool) (min_transfer_wait p_on_time : ℚ) :
    String :=
  if has_risky ∧ (min_transfer_wait < 20 ∨ p_on_time < 7/10) then "HIGH"
  else if has_risky then "MED"
  else "LOW"

/-- `presenter.present_recommendation_v2` lines 46-86: the minimum
transfer wait accumulator starts at `10^9`; if no transfer updated it, the
effective wait passed to `risk_level` is `9999`. -/
def effectiveMinWait (waits : List ℚ) : ℚ :=
  let m := waits.foldl min (10 ^ 9)
  if m = 10 ^ 9 then 9999 else m

/-! ### main.py `recommend` candidate loop and ranker.score_route_2legs -/

/-- A SQL value in a candidate row: string, integer (timestamps are
integer minutes), or NULL. -/
inductive Val where
  | s : String → Val
  | i : ℤ → Val
  | null : Val
deriving DecidableEq

/-- A candidate row: a finite map from column names to values; a missing
column raises `KeyError` on access, as in pandas. -/
abbrev Row := List (String × Val)

/-- `row[key]` with pandas `KeyError` semantics. -/
def rowGet (r : Row) (k : String) : Except String Val :=
  match r.lookup k with
  | some v => .ok v
  | none => .error ("KeyError: " ++ k)

/-- Python `str(x)` / f-string interpolation of a row value. -/
def asStr : Val → String
  | .s v => v
  | .i v => toString v
  | .null => "None"

/-- String read of a row field. -/
def rowStr (r : Row) (k : String) : Except String String :=
  (rowGet r k).map asStr

/-- Integer read of a row field (`int(...)` / `pd.to_datetime(...)` on a
well-typed value; a non-numeric value raises). -/
def rowInt (r : Row) (k : String) : Except String ℤ := do
  match ← rowGet r k with
  | .i v => .ok v
  | .s v =>
      match v.toInt? with
      | some n => .ok n
      | none => .error ("ValueError: " ++ k)
  | .null => .error ("ValueError: " ++ k)

/-- `ranker._row_bool`: missing column or NULL is `False`; otherwise
`bool(int(v))`, falling back to Python truthiness. Never raises. -/
def rowBool (r : Row) (k : String) : Bool :=
  match r.lookup k with
  | none => false
  | some (.i v) => v != 0
  | some (.s v) =>
      match v.toInt? with
      | some n => n != 0
      | none => v != ""
  | some .null => false

/-- The per-leg part of the dict built by `ranker.score_route_2legs`. -/
structure LegScore where
  train_id : ℤ
  train_no : String
  dep : String
  arr : String
  dep_time : ℤ
  arr_time : ℤ
  p_leg : ℚ
deriving DecidableEq

/-- The dict returned by `ranker.score_route_2legs`. -/
structure RouteScore where
  transfers : ℕ
  p_on_time : ℚ
  leg1 : LegScore
  leg2 : LegScore
  transfer_station : String
  min_transfer : ℚ
  has_risky : Bool
deriving DecidableEq

/-- `ranker.score_route_2legs`, with the leg-probability computation
(`prob_leg_on_time`, which never raises once its arguments exist) passed
as an oracle `probOf segment planned_arrival deadline` and
`settings.ROUTE_AGG` as `agg`. Row fields are read in the order the
Python source evaluates them; the first missing field raises `KeyError`,
modelled as `Except.error`. -/
def score_route_2legs (probOf : String → ℤ → ℤ → ℚ) (agg : String)
    (row : Row) (deadline : ℤ) : Except String RouteScore := do
  let d1 ← rowStr row "leg1_dep_code"
  let a1 ← rowStr row "leg1_arr_code"
  let seg1 := d1 ++ "->" ++ a1
  let d2 ← rowStr row "leg2_dep_code"
  let a2 ← rowStr row "leg2_arr_code"
  let seg2 := d2 ++ "->" ++ a2
  let t1a ← rowInt row "leg1_arr_time"
  let p1 := probOf seg1 t1a deadline
  let t2a ← rowInt row "leg2_arr_time"
  let p2 := probOf seg2 t2a deadline
  let pRoute := aggregate_route agg [p1, p2]
  let t2d ← rowInt row "leg2_dep_time"
  let slack : ℚ := ((t2d - t1a : ℤ) : ℚ)
  let hasRisky := rowBool row "is_risky_segment_1" ||
    rowBool row "is_risky_segment_2"
  let id1 ← rowInt row "leg1_train_id"
  let no1 ← rowStr row "leg1_train_no"
  let t1d ← rowInt row "leg1_dep_time"
  let id2 ← rowInt row "leg2_train_id"
  let no2 ← rowStr row "leg2_train_no"
  let st ← rowStr row "transfer_station"
  .ok { transfers := 1, p_on_time := pRoute,
        leg1 := ⟨id1, no1, d1, a1, t1d, t1a, p1⟩,
        leg2 := ⟨id2, no2, d2, a2, t2d, t2a, p2⟩,
        transfer_station := st, min_transfer := slack,
        has_risky := hasRisky }

/-- The candidate loop of `main.recommend` (lines 64-66): score each row
in order, appending to `results`; an exception raised while scoring one
row propagates and aborts the whole loop — there is no try/except. -/
def recommendScores (probOf : String → ℤ → ℤ → ℚ) (agg : String)
    (deadline : ℤ) : List Row → Except String (List RouteScore)
  | [] => .ok []
  | r :: rs =>
      match score_route_2legs probOf agg r deadline with
      | .error e => .error e
      | .ok s =>
          match recommendScores probOf agg deadline rs with
          | .error e => .error e
          | .ok rest => .ok (s :: rest)

/-- A well-formed 2-leg candidate row (all required fields present and
well-typed). -/
def goodRow : Row :=
  [("leg1_dep_code", .s "NAT000001"), ("leg1_arr_code", .s "NAT013271"),
   ("leg2_dep_code", .s "NAT013271"), ("leg2_arr_code", .s "NAT000002"),
   ("leg1_arr_time", .i 600), ("leg2_arr_time", .i 700),
   ("leg2_dep_time", .i 630), ("leg1_train_id", .i 11),
   ("leg1_train_no", .s "KTX101"), ("leg1_dep_time", .i 500),
   ("leg2_train_id", .i 22), ("leg2_train_no", .s "KTX202"),
   ("transfer_station", .s "Dongdaegu")]

/-- The same candidate row with the required field `leg1_arr_code`
missing: a malformed row. -/
def badRow : Row :=
  [("leg1_dep_code", .s "NAT000001"),
   ("leg2_dep_code", .s "NAT013271"), ("leg2_arr_code", .s "NAT000002"),
   ("leg1_arr_time", .i 600), ("leg2_arr_time", .i 700),
   ("leg2_dep_time", .i 630), ("leg1_train_id", .i 11),
   ("leg1_train_no", .s "KTX101"), ("leg1_dep_time", .i 500),
   ("leg2_train_id", .i 22), ("leg2_train_no", .s "KTX202"),
   ("transfer_station", .s "Dongdaegu")]

/-- A concrete leg-probability oracle for witnesses. -/
def oracle0 : String → ℤ → ℤ → ℚ := fun _ _ _ => 9/10

/-! ## Theorems -/

/-- C3 counterexample: the claim says the empty leg list aggregates to
exactly `0.0` under both policies, but under the `"product"` policy
`aggregate_route` returns the initial accumulator `1.0`, not `0.0`. -/
theorem c3_empty_product_is_one :
    aggregate_route "product" ([] : List ℚ) = 1 ∧
    aggregate_route "product" ([] : List ℚ) ≠ 0 := by
  constructor
  · rfl
  · intro h
    simp [aggregate_route] at h

/-- C3 (amended): the empty list of leg probabilities aggregates to
exactly `0.0` under the `"min"` policy (the explicit empty-list guard),
while under the `"product"` policy it yields the multiplicative identity
`1.0`. -/
theorem c3_empty_aggregate :
    aggregate_route "min" ([] : List ℚ) = 0 ∧
    aggregate_route "product" ([] : List ℚ) = 1 := by
  exact ⟨rfl, rfl⟩

/-- C9: `risk_level` returns `"HIGH"` iff `has_risky` and (the minimum
transfer wait is below 20 or the route probability is below 0.7);
`"MED"` iff `has_risky` and no HIGH condition holds; `"LOW"` iff not
`has_risky`; and a route with no transfers gets the sentinel effective
wait `9999`, so it can be `"HIGH"` only via probability `< 0.7`. -/
theorem c9_risk_level_characterisation (h : Bool) (w p : ℚ) :
    (risk_level h w p = "HIGH" ↔ (h = true ∧ (w < 20 ∨ p < 7/10)))
    ∧ (risk_level h w p = "MED" ↔ (h = true ∧ ¬(w < 20 ∨ p < 7/10)))
    ∧ (risk_level h w p = "LOW" ↔ h = false)
    ∧ effectiveMinWait [] = 9999
    ∧ (risk_level h (effectiveMinWait []) p = "HIGH" ↔
        (h = true ∧ p < 7/10)) := by
  have hw : effectiveMinWait [] = 9999 := rfl
  have hsent : ¬ ((9999 : ℚ) < 20) := by norm_num
  refine ⟨?_, ?_, ?_, hw, ?_⟩
  · rw [risk_level]
    split_ifs with hc1 hc2 <;> simp_all
  · rw [risk_level]
    split_ifs with hc1 hc2 <;> simp_all
  · rw [risk_level]
    split_ifs with hc1 hc2 <;> simp_all
  · rw [hw, risk_level]
    split_ifs with hc1 hc2
    · simp only [String.reduceEq, eq_self_iff_true, true_iff]
      exact ⟨hc1.1, hc1.2.resolve_left hsent⟩
    · simp only [String.reduceEq, false_iff]
      rintro ⟨hh, hp⟩
      exact hc1 ⟨hh, Or.inr hp⟩
    · simp only [String.reduceEq, false_iff]
      rintro ⟨hh, _⟩
      exact hc2 hh

/-- C9 witness: the characterisation applied at a concrete route with a
risky station, a 10-minute transfer wait and probability 0.65. -/
theorem c9_risk_level_witness :
    (risk_level true 10 (65/100) = "HIGH" ↔
      (true = true ∧ ((10:ℚ) < 20 ∨ (65/100:ℚ) < 7/10)))
    ∧ (risk_level true 10 (65/100) = "MED" ↔
      (true = true ∧ ¬((10:ℚ) < 20 ∨ (65/100:ℚ) < 7/10)))
    ∧ (risk_level true 10 (65/100) = "LOW" ↔ true = false)
    ∧ effectiveMinWait [] = 9999
    ∧ (risk_level true (effectiveMinWait []) (65/100) = "HIGH" ↔
      (true = true ∧ (65/100:ℚ) < 7/10)) :=
  c9_risk_level_characterisation true 10 (65/100)

/-- C8: whenever the fetched history has `m ≤ lookback_steps` rows (in
ascending timestamp order, as `fetch_lookback_bucket_delays` returns
them), the padded window has exactly `lookback_steps` entries and is
ascending by timestamp. -/
theorem c8_padded_window (seg : String) (target : ℤ) (B L : ℕ)
    (hist : List BRow) (hlen : hist.length ≤ L)
    (hsort : hist.Pairwise tsLe) :
    (padHistory seg target B L hist).length = L ∧
    (padHistory seg target B L hist).Pairwise tsLe := by
  unfold padHistory
  split
  · constructor
    · have hp : (padRows target B (L - hist.length) seg).length =
          L - hist.length := by
        simp [padRows]
      rw [List.length_insertionSort, List.length_append, hp]
      omega
    · exact List.sorted_insertionSort tsLe _
  · next hge => exact ⟨le_antisymm hlen (not_lt.mp hge), hsort⟩

/-- C8 witness: one real bucket, lookback 3, bucket width 10. -/
theorem c8_padded_window_witness :
    (padHistory "s" 0 10 3 [⟨"s", -20, 2⟩]).length = 3 ∧
    (padHistory "s" 0 10 3 [⟨"s", -20, 2⟩]).Pairwise tsLe :=
  c8_padded_window "s" 0 10 3 [⟨"s", -20, 2⟩] (by decide) (by decide)

/-- C2 counterexample: with lookback 3, bucket width 10, target bucket
timestamp 0 and a single real row at timestamp −200, the synthetic rows
get timestamps −20 and −10 (ending one bucket before the *target*, not
one bucket before the earliest real row, which would be −210), and in the
sorted window the real row comes *first*, so the synthetic rows do not
all precede the real rows. -/
theorem c2_padding_counterexample :
    padHistory "s" 0 10 3 [⟨"s", -200, 5⟩] =
      [⟨"s", -200, 5⟩, ⟨"s", -20, 0⟩, ⟨"s", -10, 0⟩] ∧
    ((-10 : ℤ) ≠ -200 - 10) := by
  decide

/-- C2 (amended): when the fetch returns `m` real rows with
`1 ≤ m < lookback_steps`, the `lookback_steps − m` synthetic rows have
delay `0.0`, are spaced at the bucket width, and end exactly one bucket
width before the *target bucket timestamp*; the final window is the
synthetic rows merged with the real rows in ascending timestamp order (a
permutation of their concatenation), so synthetic rows may interleave
with, collide with, or follow real rows. -/
theorem c2_padding_shape (seg : String) (target : ℤ) (B L : ℕ)
    (hist : List BRow) (_h1 : 1 ≤ hist.length) (h2 : hist.length < L) :
    (∀ r ∈ padRows target B (L - hist.length) seg, r.y = 0)
    ∧ List.Chain' (fun a b => b.ts = a.ts + (B : ℤ))
        (padRows target B (L - hist.length) seg)
    ∧ (⟨seg, target - (B : ℤ), 0⟩ : BRow) ∈
        padRows target B (L - hist.length) seg
    ∧ (∀ r ∈ padRows target B (L - hist.length) seg,
        r.ts ≤ target - (B : ℤ))
    ∧ (padHistory seg target B L hist).Perm
        (padRows target B (L - hist.length) seg ++ hist)
    ∧ (padHistory seg target B L hist).Pairwise tsLe := by
  have hB : (0 : ℤ) ≤ (B : ℤ) := Int.natCast_nonneg B
  refine ⟨?_, ?_, ?_, ?_, ?_, ?_⟩
  · intro r hr
    simp only [padRows, List.mem_map] at hr
    obtain ⟨i, _, rfl⟩ := hr
    rfl
  · rw [List.chain'_iff_get]
    intro i hi
    simp only [padRows, List.length_map, List.length_range] at hi
    simp only [padRows, List.get_eq_getElem, List.getElem_map,
      List.getElem_range]
    push_cast
    ring
  · have hmem : L - hist.length - 1 ∈ List.range (L - hist.length) :=
      List.mem_range.mpr (by omega)
    refine List.mem_map.mpr ⟨L - hist.length - 1, hmem, ?_⟩
    simp only [BRow.mk.injEq, true_and, and_true]
    have hc : ((L - hist.length - 1 : ℕ) : ℤ) =
        ((L - hist.length : ℕ) : ℤ) - 1 := by omega
    rw [hc]
    ring
  · intro r hr
    simp only [padRows, List.mem_map, List.mem_range] at hr
    obtain ⟨i, hi, rfl⟩ := hr
    have h1' : (1 : ℤ) ≤ ((L - hist.length : ℕ) : ℤ) - (i : ℤ) := by
      omega
    show target - (((L - hist.length : ℕ) : ℤ) - (i : ℤ)) * (B : ℤ) ≤
      target - (B : ℤ)
    nlinarith
  · unfold padHistory
    rw [if_pos h2]
    exact List.perm_insertionSort _ _
  · unfold padHistory
    rw [if_pos h2]
    exact List.sorted_insertionSort tsLe _

/-- C2 witness: lookback 3, bucket width 10, target 0, one real row at
timestamp −200. -/
theorem c2_padding_shape_witness :
    ((∀ r ∈ padRows 0 10 (3 - [(⟨"s", -200, 5⟩ : BRow)].length) "s",
        r.y = 0)
    ∧ List.Chain' (fun a b => b.ts = a.ts + ((10 : ℕ) : ℤ))
        (padRows 0 10 (3 - [(⟨"s", -200, 5⟩ : BRow)].length) "s")
    ∧ (⟨"s", 0 - ((10 : ℕ) : ℤ), 0⟩ : BRow) ∈
        padRows 0 10 (3 - [(⟨"s", -200, 5⟩ : BRow)].length) "s"
    ∧ (∀ r ∈ padRows 0 10 (3 - [(⟨"s", -200, 5⟩ : BRow)].length) "s",
        r.ts ≤ 0 - ((10 : ℕ) : ℤ))
    ∧ (padHistory "s" 0 10 3 [⟨"s", -200, 5⟩]).Perm
        (padRows 0 10 (3 - [(⟨"s", -200, 5⟩ : BRow)].length) "s" ++
          [⟨"s", -200, 5⟩])
    ∧ (padHistory "s" 0 10 3 [⟨"s", -200, 5⟩]).Pairwise tsLe) :=
  c2_padding_shape "s" 0 10 3 [⟨"s", -200, 5⟩] (by decide) (by decide)

/-- C4 counterexample: a batch of one well-formed candidate followed by
one candidate missing `leg1_arr_code` does not complete with the good
candidate scored — the whole batch aborts with the propagated
`KeyError`, contradicting the claim that a malformed row is skipped and
the rest of the batch still completes. -/
theorem c4_batch_abort_counterexample :
    recommendScores oracle0 "min" 720 [goodRow, badRow] =
      Except.error "KeyError: leg1_arr_code" := by
  rfl

/-- C4 (amended): a candidate row whose scoring fails (e.g. one missing a
required leg field) aborts the whole batch: the exception propagates out
of the candidate loop of `main.recommend`, which has no try/except, so no
scored result list is produced at all — candidates are not individually
skipped. -/
theorem c4_malformed_aborts_batch
    (probOf : String → ℤ → ℤ → ℚ) (agg : String) (deadline : ℤ)
    (rows : List Row) (r : Row) (hmem : r ∈ rows)
    (hbad : (score_route_2legs probOf agg r deadline).isOk = false) :
    (recommendScores probOf agg deadline rows).isOk = false := by
  induction rows with
  | nil => cases hmem
  | cons a rs ih =>
    rcases List.mem_cons.mp hmem with rfl | hmem'
    · cases hs : score_route_2legs probOf agg r deadline with
      | error e =>
        have hrw : recommendScores probOf agg deadline (r :: rs) =
            Except.error e := by
          simp [recommendScores, hs]
        rw [hrw]
        rfl
      | ok v =>
        rw [hs] at hbad
        simp [Except.isOk, Except.toBool] at hbad
    · cases hs : score_route_2legs probOf agg a deadline with
      | error e =>
        have hrw : recommendScores probOf agg deadline (a :: rs) =
            Except.error e := by
          simp [recommendScores, hs]
        rw [hrw]
        rfl
      | ok v =>
        have htail := ih hmem'
        cases hrec : recommendScores probOf agg deadline rs with
        | error e =>
          have hrw : recommendScores probOf agg deadline (a :: rs) =
              Except.error e := by
            simp [recommendScores, hs, hrec]
          rw [hrw]
          rfl
        | ok l =>
          rw [hrec] at htail
          simp [Except.isOk, Except.toBool] at htail

/-- C4 witness: the two-candidate batch with the malformed second row. -/
theorem c4_malformed_aborts_batch_witness :
    (recommendScores oracle0 "min" 720 [goodRow, badRow]).isOk = false :=
  c4_malformed_aborts_batch oracle0 "min" 720 [goodRow, badRow] badRow
    (by decide) (by rfl)

/-- C7: the ranking pipeline returns `min topk n` entries; the 1-based
ranks are exactly `1, 2, …` in order (strictly increasing); probabilities
are non-increasing along the output; and the sort is stable: two
candidates with equal probability appear in the sorted sequence in their
input order. -/
theorem c7_rank_pipeline (probs : List ℚ) (topk : ℕ) :
    (rankTop probs topk).length = min topk probs.length
    ∧ (rankTop probs topk).map (fun e => e.1) =
        (List.range (min topk probs.length)).map (fun i => i + 1)
    ∧ (rankTop probs topk).Pairwise
        (fun a b => a.1 < b.1 ∧ b.2.2 ≤ a.2.2)
    ∧ ∀ (i j : ℕ) (hi : i < probs.length) (hj : j < probs.length),
        i < j → probs[i] = probs[j] →
        [(i, probs[i]), (j, probs[j])].Sublist (sortScored probs.enum) := by
  have hslen : (sortScored probs.enum).length = probs.length := by
    simp [sortScored, List.length_insertionSort]
  have htlen : ((sortScored probs.enum).take topk).length =
      min topk probs.length := by
    rw [List.length_take, hslen]
  have hrlen : (rankTop probs topk).length = min topk probs.length := by
    simp only [rankTop, List.length_map, List.enum_length]
    exact htlen
  have hsorted : (sortScored probs.enum).Pairwise probGe :=
    List.sorted_insertionSort probGe _
  have htsorted : ((sortScored probs.enum).take topk).Pairwise probGe :=
    List.Pairwise.sublist (List.take_sublist topk _) hsorted
  refine ⟨hrlen, ?_, ?_, ?_⟩
  · refine List.ext_getElem ?_ ?_
    · simp only [List.length_map, List.length_range, hrlen]
    · intro i h1 h2
      simp only [rankTop, List.getElem_map, List.getElem_range,
        List.getElem_enum]
  · rw [List.pairwise_iff_getElem]
    intro i j hi hj hij
    simp only [rankTop, List.length_map, List.enum_length] at hi hj
    simp only [rankTop, List.getElem_map, List.getElem_enum]
    refine ⟨by omega, ?_⟩
    exact (List.pairwise_iff_getElem.mp htsorted) i j hi hj hij
  · intro i j hi hj hij heq
    have hi' : i < (probs.enum).length := by
      rw [List.enum_length]; exact hi
    have hj' : j < (probs.enum).length := by
      rw [List.enum_length]; exact hj
    have hfin : List.Pairwise (fun a b : Fin (probs.enum).length =>
        (a : ℕ) < (b : ℕ)) [⟨i, hi'⟩, ⟨j, hj'⟩] :=
      List.pairwise_pair.mpr hij
    have hsub := List.map_getElem_sublist hfin
    have hmap : ([⟨i, hi'⟩, ⟨j, hj'⟩] : List (Fin (probs.enum).length)).map
        (fun k => (probs.enum)[k]) =
        [(i, probs[i]), (j, probs[j])] := by
      simp [List.getElem_enum]
    rw [hmap] at hsub
    have hab : probGe (i, probs[i]) (j, probs[j]) := le_of_eq heq.symm
    simpa [sortScored] using List.pair_sublist_insertionSort hab hsub

/-- C7 witness: three candidates with a probability tie between the
first and the third, `topk = 2`. -/
theorem c7_rank_pipeline_witness :
    ((rankTop [1/2, 7/10, 1/2] 2).length = min 2 ([1/2, 7/10, 1/2] :
        List ℚ).length
    ∧ (rankTop [1/2, 7/10, 1/2] 2).map (fun e => e.1) =
        (List.range (min 2 ([1/2, 7/10, 1/2] : List ℚ).length)).map
          (fun i => i + 1)
    ∧ (rankTop [1/2, 7/10, 1/2] 2).Pairwise
        (fun a b => a.1 < b.1 ∧ b.2.2 ≤ a.2.2)
    ∧ ∀ (i j : ℕ) (hi : i < ([1/2, 7/10, 1/2] : List ℚ).length)
        (hj : j < ([1/2, 7/10, 1/2] : List ℚ).length),
        i < j → ([1/2, 7/10, 1/2] : List ℚ)[i] =
          ([1/2, 7/10, 1/2] : List ℚ)[j] →
        [(i, ([1/2, 7/10, 1/2] : List ℚ)[i]),
         (j, ([1/2, 7/10, 1/2] : List ℚ)[j])].Sublist
          (sortScored ([1/2, 7/10, 1/2] : List ℚ).enum)) :=
  c7_rank_pipeline [1/2, 7/10, 1/2] 2

/-! ### Analytic facts about `erf`, `normal_cdf`, `mixture_cdf` -/

theorem expsq_intervalIntegrable (a b : ℝ) :
    IntervalIntegrable (fun t : ℝ => Real.exp (-(t ^ 2)))
      MeasureTheory.volume a b :=
  (Real.continuous_exp.comp ((continuous_pow 2).neg)).intervalIntegrable a b

theorem erf_mono {z1 z2 : ℝ} (h : z1 ≤ z2) : erf z1 ≤ erf z2 := by
  unfold erf
  have hcoef : (0 : ℝ) ≤ 2 / Real.sqrt Real.pi :=
    div_nonneg (by norm_num) (Real.sqrt_nonneg _)
  refine mul_le_mul_of_nonneg_left ?_ hcoef
  have hadd := intervalIntegral.integral_add_adjacent_intervals
    (expsq_intervalIntegrable 0 z1) (expsq_intervalIntegrable z1 z2)
  have hpos : 0 ≤ ∫ t in z1..z2, Real.exp (-(t ^ 2)) :=
    intervalIntegral.integral_nonneg h (fun u _ => (Real.exp_pos _).le)
  linarith

theorem erf_zero : erf 0 = 0 := by
  unfold erf
  rw [intervalIntegral.integral_same, mul_zero]

theorem normal_cdf_mono {z1 z2 : ℝ} (h : z1 ≤ z2) :
    normal_cdf z1 ≤ normal_cdf z2 := by
  unfold normal_cdf
  have h2 : (0 : ℝ) < Real.sqrt 2 := Real.sqrt_pos.mpr (by norm_num)
  have hdiv : z1 / Real.sqrt 2 ≤ z2 / Real.sqrt 2 :=
    (div_le_div_iff_of_pos_right h2).mpr h
  have := erf_mono hdiv
  linarith

theorem normal_cdf_zero : normal_cdf 0 = 1/2 := by
  unfold normal_cdf
  rw [zero_div, erf_zero]
  norm_num

theorem mixture_cdf_mono (pi mu sigma : List ℝ)
    (hpi : ∀ p ∈ pi, 0 ≤ p) {x1 x2 : ℝ} (h : x1 ≤ x2) :
    mixture_cdf x1 pi mu sigma ≤ mixture_cdf x2 pi mu sigma := by
  induction pi generalizing mu sigma with
  | nil => simp [mixture_cdf]
  | cons p ps ih =>
    cases mu with
    | nil => simp [mixture_cdf]
    | cons m ms =>
      cases sigma with
      | nil => simp [mixture_cdf]
      | cons s ss =>
        simp only [mixture_cdf]
        have hs : (0 : ℝ) < max s 1e-6 :=
          lt_of_lt_of_le (by norm_num) (le_max_right _ _)
        have hz : (x1 - m) / max s 1e-6 ≤ (x2 - m) / max s 1e-6 :=
          (div_le_div_iff_of_pos_right hs).mpr (by linarith)
        have hphi := normal_cdf_mono hz
        have hp : 0 ≤ p := hpi p (by simp)
        have hrest := ih ms ss (fun q hq => hpi q (List.mem_cons_of_mem p hq))
        have hmul := mul_le_mul_of_nonneg_left hphi hp
        linarith

theorem mixture_cdf_eq_sum (x : ℝ) : ∀ (pi mu sigma : List ℝ),
    mixture_cdf x pi mu sigma =
      ((pi.zip (mu.zip sigma)).map (fun t =>
        t.1 * normal_cdf ((x - t.2.1) / max t.2.2 1e-6))).sum
  | [], _, _ => by simp [mixture_cdf]
  | p :: ps, [], _ => by simp [mixture_cdf]
  | p :: ps, m :: ms, [] => by simp [mixture_cdf]
  | p :: ps, m :: ms, s :: ss => by
    simp only [mixture_cdf, List.zip_cons_cons, List.map_cons,
      List.sum_cons]
    rw [mixture_cdf_eq_sum x ps ms ss]

theorem clamp01_nonneg (x : ℝ) : 0 ≤ clamp01 x := le_max_left _ _

theorem clamp01_le_one (x : ℝ) : clamp01 x ≤ 1 :=
  max_le (by norm_num) (min_le_left _ _)

theorem clamp01_mono {x y : ℝ} (h : x ≤ y) : clamp01 x ≤ clamp01 y :=
  max_le_max le_rfl (min_le_min le_rfl h)

theorem mixture_cdf_std_zero : mixture_cdf 0 [1] [0] [1] = 1/2 := by
  have hmax : max (1 : ℝ) 1e-6 = 1 := max_eq_left (by norm_num)
  simp only [mixture_cdf, hmax]
  rw [show ((0 : ℝ) - 0) / 1 = 0 by norm_num, normal_cdf_zero]
  ring

/-- C1 counterexample: with the standard mixture (`weights=[1]`,
`means=[0]`, `stddevs=[1]`), normalisation `mean=0, std=1` and raw slack
`−5 < 0`, lines 69-71 of `ranker.prob_leg_on_time` clamp the slack to `0`
and evaluate the mixture CDF there, producing probability `1/2`, not the
claimed exact `0.0` — the mixture is not bypassed. -/
theorem c1_negative_slack_counterexample :
    ((-5 : ℝ) < 0)
    ∧ prob_from_slack 0 1 [1] [0] [1] (-5) = 1/2
    ∧ ((1 : ℝ)/2 ≠ 0) := by
  refine ⟨by norm_num, ?_, by norm_num⟩
  unfold prob_from_slack
  rw [max_eq_left (by norm_num : (-5 : ℝ) ≤ 0)]
  rw [show ((0 : ℝ) - 0) / max 1 1e-8 = 0 by
    rw [max_eq_left (by norm_num : (1e-8 : ℝ) ≤ 1)]; norm_num]
  rw [mixture_cdf_std_zero]
  unfold clamp01
  rw [min_eq_right (by norm_num : (1 : ℝ)/2 ≤ 1),
    max_eq_right (by norm_num : (0 : ℝ) ≤ 1/2)]

/-- C1 (amended): for a leg whose segment is known, a negative raw slack
(deadline strictly before planned arrival) is clamped to `0` by
`max(0.0, …)`; the probability is *not* forced to `0.0` and the mixture
CDF is still evaluated — the result equals the probability computed at
slack `0`, for any mixture. -/
theorem c1_negative_slack_clamped (mean std : ℝ) (pi mu sigma : List ℝ)
    (slackRaw : ℝ) (h : slackRaw < 0) :
    prob_from_slack mean std pi mu sigma slackRaw =
      prob_from_slack mean std pi mu sigma 0 := by
  unfold prob_from_slack
  rw [max_eq_left h.le, max_self]

/-- C1 witness: the amended statement at slack `−5` with the standard
mixture. -/
theorem c1_negative_slack_clamped_witness :
    prob_from_slack 0 1 [1] [0] [1] (-5) =
      prob_from_slack 0 1 [1] [0] [1] 0 :=
  c1_negative_slack_clamped 0 1 [1] [0] [1] (-5) (by norm_num)

/-- C5: for a fixed mixture with non-negative weights and slacks
`0 ≤ s1 ≤ s2`, the computed on-time probability at `s1` is at most the
probability at `s2`: the pipeline `slack ↦ clamp01 (mixture_cdf x_norm)`
is monotone non-decreasing in the slack. -/
theorem c5_probability_monotone_in_slack (mean std : ℝ)
    (pi mu sigma : List ℝ) (hpi : ∀ p ∈ pi, 0 ≤ p) (s1 s2 : ℝ)
    (_h0 : 0 ≤ s1) (h12 : s1 ≤ s2) :
    prob_from_slack mean std pi mu sigma s1 ≤
      prob_from_slack mean std pi mu sigma s2 := by
  unfold prob_from_slack
  have hstd : (0 : ℝ) < max std 1e-8 :=
    lt_of_lt_of_le (by norm_num) (le_max_right _ _)
  have hx : (max 0 s1 - mean) / max std 1e-8 ≤
      (max 0 s2 - mean) / max std 1e-8 :=
    (div_le_div_iff_of_pos_right hstd).mpr
      (sub_le_sub_right (max_le_max le_rfl h12) mean)
  exact clamp01_mono (mixture_cdf_mono pi mu sigma hpi hx)

/-- C5 witness: the standard mixture at slacks `0 ≤ 1`. -/
theorem c5_probability_monotone_witness :
    prob_from_slack 0 1 [1] [0] [1] 0 ≤ prob_from_slack 0 1 [1] [0] [1] 1 :=
  c5_probability_monotone_in_slack 0 1 [1] [0] [1]
    (by intro p hp; rw [List.mem_singleton] at hp; rw [hp]; norm_num)
    0 1 le_rfl (by norm_num)

/-- C6: `mixture_cdf` is exactly the weighted sum
`Σ_k weight_k · Φ((threshold − mean_k) / max(stddev_k, ε))`; clamping the
sum keeps the final probability in `[0, 1]` for every threshold and
mixture; and for `weights=[1]`, `means=[0]`, `stddevs=[1]` at threshold
`0` the clamped result is exactly `1/2`. -/
theorem c6_mixture_formula_and_range :
    (∀ (x : ℝ) (pi mu sigma : List ℝ),
        mixture_cdf x pi mu sigma =
          ((pi.zip (mu.zip sigma)).map (fun t =>
            t.1 * normal_cdf ((x - t.2.1) / max t.2.2 1e-6))).sum)
    ∧ (∀ (x : ℝ) (pi mu sigma : List ℝ),
        0 ≤ clamp01 (mixture_cdf x pi mu sigma) ∧
        clamp01 (mixture_cdf x pi mu sigma) ≤ 1)
    ∧ clamp01 (mixture_cdf 0 [1] [0] [1]) = 1/2 := by
  refine ⟨fun x pi mu sigma => mixture_cdf_eq_sum x pi mu sigma,
    fun x pi mu sigma => ⟨clamp01_nonneg _, clamp01_le_one _⟩, ?_⟩
  rw [mixture_cdf_std_zero]
  unfold clamp01
  rw [min_eq_right (by norm_num : (1 : ℝ)/2 ≤ 1),
    max_eq_right (by norm_num : (0 : ℝ) ≤ 1/2)]

/-- C10: for a segment outside the forecaster's vocabulary,
`prob_leg_on_time` returns exactly `0.5` for every planned arrival and
deadline — the fallback fires before any slack is computed, so it applies
even when the deadline is strictly before the planned arrival. -/
theorem c10_unknown_segment_half (store : Store) (segment : String)
    (planned deadline : ℝ) (h : store.segId segment = none) :
    prob_leg_on_time store segment planned deadline = 1/2 := by
  unfold prob_leg_on_time
  rw [h]
  norm_num

/-- C10 witness: an all-unknown store, planned arrival `5`, deadline `0`
(strictly before the planned arrival): the result is still `1/2`, not the
forced `0.0` of the infeasible-deadline rule. -/
theorem c10_unknown_segment_half_witness :
    storeUnknown.segId "A->B" = none
    ∧ ((0 : ℝ) < 5)
    ∧ prob_leg_on_time storeUnknown "A->B" 5 0 = 1/2 :=
  ⟨rfl, by norm_num, c10_unknown_segment_half storeUnknown "A->B" 5 0 rfl⟩

end TrainRec
